import Mathlib

set_option maxRecDepth 100000

/-!
Shallow embedding of the Sharia-compliant investment platform contract
(src/contract/lib.rs and src/contract/types.rs).

Modelling conventions:
- account ids (`H160`) are modelled as `Nat`; they are only compared for
  equality, never computed with;
- machine integers are `Nat` (or `Int` for stored balances, so that the
  no-negative-balance property is expressible), reduced modulo `2 ^ w`
  exactly where the corresponding Rust type bounds a value supplied by
  the caller or the environment, and where an arithmetic operation of a
  single call wraps (the `u16` allocation sum, the `u128` balance and
  total-value additions, the `u32` block-height addition);
- the `u32` id allocators `next_etf_id` and `next_dca_order_id` are
  modelled as unbounded naturals: their wrap-around would need `2 ^ 32`
  allocation calls inside one contract lifetime, which is outside the
  regime modelled here;
- `ink::storage::Mapping` is modelled as a total function into `Option`
  (into `Int` with default `0` for balances, matching the pervasive
  `.get(k).unwrap_or(0)` in the source);
- every message is a pure function from the pre-state and the call
  environment (caller, block number, block timestamp, transferred value)
  to a `Result` paired with the post-state; an early `return Err(..)`
  yields the unchanged pre-state, exactly as in the source, where no
  storage write precedes any early return.
-/

namespace Tayeb

/-- Reduction of a caller-supplied value to the `u8` range. -/
def u8 (n : Nat) : Nat := n % 2 ^ 8

/-- Reduction to the `u16` range, used by the wrapping allocation sum. -/
def u16 (n : Nat) : Nat := n % 2 ^ 16

/-- Reduction of a caller- or environment-supplied value to the `u32` range. -/
def u32 (n : Nat) : Nat := n % 2 ^ 32

/-- Reduction of a timestamp to the `u64` range. -/
def u64 (n : Nat) : Nat := n % 2 ^ 64

/-- Reduction of an amount to the `u128` (`Balance`) range. -/
def u128 (n : Nat) : Nat := n % 2 ^ 128

/-- src/contract/types.rs: `ShariaCoin`. -/
structure ShariaCoin where
  id : String
  name : String
  symbol : String
  verified : Bool
  compliance_reason : String
  deriving DecidableEq

/-- src/contract/types.rs: `Error`. -/
inductive Error where
  | CoinNotFound
  | NotShariaCompliant
  | ETFNotFound
  | DCAOrderNotFound
  | InsufficientBalance
  | Unauthorized
  | InvalidAllocation
  | InvalidCoinInAllocation
  | OrderNotReady
  | OrderInactive
  | InvalidStartTime
  | ETFNotOwnedByUser
  deriving DecidableEq

/-- src/contract/lib.rs: `struct ETF`. -/
structure ETF where
  id : Nat
  name : String
  description : String
  creator : Nat
  allocations : List (String × Nat)
  is_template : Bool
  total_value : Nat
  deriving DecidableEq

/-- src/contract/lib.rs: `struct DCAOrder`. -/
structure DCAOrder where
  id : Nat
  owner : Nat
  coin_id : String
  amount_per_interval : Nat
  interval_blocks : Nat
  intervals_completed : Nat
  total_intervals : Nat
  next_execution_block : Nat
  start_timestamp : Nat
  is_active : Bool
  deriving DecidableEq

/-- src/contract/lib.rs: `struct ShariaPlatform` (the contract storage). -/
structure ShariaPlatform where
  owner : Nat
  sharia_coins : String → Option ShariaCoin
  etfs : Nat → Option ETF
  template_etfs : Nat → Option ETF
  next_etf_id : Nat
  user_etf_subscriptions : Nat → List Nat
  dca_orders : Nat → Option DCAOrder
  user_dca_orders : Nat → List Nat
  next_dca_order_id : Nat
  balances : Nat → Int
  coin_ids : List String

/-- First seeded template of `initialize_template_etfs`. -/
def etf1 (owner : Nat) : ETF :=
  { id := 1
    name := "Major Sharia Coins ETF"
    description := "Diversified portfolio of major Sharia-compliant cryptocurrencies"
    creator := owner
    allocations := [("BTC", 40), ("ETH", 30), ("BNB", 15), ("XRP", 15)]
    is_template := true
    total_value := 0 }

/-- Second seeded template of `initialize_template_etfs`. -/
def etf2 (owner : Nat) : ETF :=
  { id := 2
    name := "Sharia Stablecoins ETF"
    description := "Portfolio focused on Sharia-compliant stablecoins"
    creator := owner
    allocations := [("USDT", 50), ("USDC", 30), ("DAI", 20)]
    is_template := true
    total_value := 0 }

/-- Third seeded template of `initialize_template_etfs`. -/
def etf3 (owner : Nat) : ETF :=
  { id := 3
    name := "DeFi Sharia ETF"
    description := "Decentralized finance tokens that comply with Sharia principles"
    creator := owner
    allocations := [("ETH", 50), ("BNB", 25), ("ADA", 15), ("DOT", 10)]
    is_template := true
    total_value := 0 }

/-- src/contract/lib.rs: `initialize_template_etfs`.  Inserts the three
seeded templates at keys 1, 2, 3; note that it does not advance
`next_etf_id`. -/
def initialize_template_etfs (s : ShariaPlatform) : ShariaPlatform :=
  let t := Function.update s.template_etfs 1 (some (etf1 s.owner))
  let t := Function.update t 2 (some (etf2 s.owner))
  let t := Function.update t 3 (some (etf3 s.owner))
  { s with template_etfs := t }

/-- src/contract/lib.rs: the `new` constructor; `caller` is the deploying
account, recorded as the platform owner. -/
def ShariaPlatform.new (caller : Nat) : ShariaPlatform :=
  initialize_template_etfs
    { owner := caller
      sharia_coins := fun _ => none
      etfs := fun _ => none
      template_etfs := fun _ => none
      next_etf_id := 1
      user_etf_subscriptions := fun _ => []
      dca_orders := fun _ => none
      user_dca_orders := fun _ => []
      next_dca_order_id := 1
      balances := fun _ => 0
      coin_ids := [] }

/-- src/contract/lib.rs: `ensure_owner`. -/
def ensure_owner (s : ShariaPlatform) (caller : Nat) : Except Error Unit :=
  if caller ≠ s.owner then .error .Unauthorized else .ok ()

/-- src/contract/lib.rs: `register_sharia_coin`. -/
def register_sharia_coin (s : ShariaPlatform) (caller : Nat)
    (coin_id name symbol compliance_reason : String) :
    Except Error Unit × ShariaPlatform :=
  match ensure_owner s caller with
  | .error e => (.error e, s)
  | .ok _ =>
    let coin : ShariaCoin :=
      { id := coin_id, name := name, symbol := symbol, verified := true
        compliance_reason := compliance_reason }
    let s := { s with sharia_coins := Function.update s.sharia_coins coin_id (some coin) }
    let s := if s.coin_ids.contains coin_id then s
             else { s with coin_ids := s.coin_ids ++ [coin_id] }
    (.ok (), s)

/-- src/contract/lib.rs: `remove_sharia_coin`. -/
def remove_sharia_coin (s : ShariaPlatform) (caller : Nat) (coin_id : String) :
    Except Error Unit × ShariaPlatform :=
  match ensure_owner s caller with
  | .error e => (.error e, s)
  | .ok _ =>
    if (s.sharia_coins coin_id).isSome then
      (.ok (), { s with sharia_coins := Function.update s.sharia_coins coin_id none
                        coin_ids := s.coin_ids.erase coin_id })
    else
      (.error .CoinNotFound, s)

/-- src/contract/lib.rs: `get_sharia_coins`. -/
def get_sharia_coins (s : ShariaPlatform) : List ShariaCoin :=
  s.coin_ids.filterMap s.sharia_coins

/-- src/contract/lib.rs: `is_sharia_compliant`. -/
def is_sharia_compliant (s : ShariaPlatform) (coin_id : String) : Bool :=
  match s.sharia_coins coin_id with
  | some coin => coin.verified
  | none => false

/-- The `u8` percentages of an allocation list as submitted by a caller. -/
def normalize_allocations (l : List (String × Nat)) : List (String × Nat) :=
  l.map fun p => (p.1, u8 p.2)

/-- The wrapping `u16` sum `allocations.iter().map(|(_, p)| *p as u16).sum()`
used by `create_etf` and `create_template_etf`. -/
def sum_u16 (l : List (String × Nat)) : Nat :=
  l.foldl (fun acc p => u16 (acc + p.2)) 0

/-- src/contract/lib.rs: `create_etf`. -/
def create_etf (s : ShariaPlatform) (caller : Nat) (name description : String)
    (allocations : List (String × Nat)) : Except Error Nat × ShariaPlatform :=
  let allocations := normalize_allocations allocations
  let total := sum_u16 allocations
  if total ≠ 100 then (.error .InvalidAllocation, s)
  else if allocations.any (fun p => !is_sharia_compliant s p.1) then
    (.error .InvalidCoinInAllocation, s)
  else
    let etf_id := s.next_etf_id
    let s := { s with next_etf_id := s.next_etf_id + 1 }
    let etf : ETF :=
      { id := etf_id, name := name, description := description, creator := caller
        allocations := allocations, is_template := false, total_value := 0 }
    let s := { s with etfs := Function.update s.etfs etf_id (some etf) }
    let user_etfs := s.user_etf_subscriptions caller ++ [etf_id]
    let s := { s with user_etf_subscriptions := Function.update s.user_etf_subscriptions caller user_etfs }
    (.ok etf_id, s)

/-- src/contract/lib.rs: `create_template_etf`. -/
def create_template_etf (s : ShariaPlatform) (caller : Nat) (name description : String)
    (allocations : List (String × Nat)) : Except Error Nat × ShariaPlatform :=
  match ensure_owner s caller with
  | .error e => (.error e, s)
  | .ok _ =>
    let allocations := normalize_allocations allocations
    let total := sum_u16 allocations
    if total ≠ 100 then (.error .InvalidAllocation, s)
    else if allocations.any (fun p => !is_sharia_compliant s p.1) then
      (.error .InvalidCoinInAllocation, s)
    else
      let template_id := s.next_etf_id
      let s := { s with next_etf_id := s.next_etf_id + 1 }
      let template : ETF :=
        { id := template_id, name := name, description := description, creator := s.owner
          allocations := allocations, is_template := true, total_value := 0 }
      let s := { s with template_etfs := Function.update s.template_etfs template_id (some template) }
      (.ok template_id, s)

/-- src/contract/lib.rs: `subscribe_to_template_etf`. -/
def subscribe_to_template_etf (s : ShariaPlatform) (caller : Nat)
    (template_etf_id : Nat) (investment_amount : Nat) :
    Except Error Nat × ShariaPlatform :=
  let investment_amount := u128 investment_amount
  match s.template_etfs template_etf_id with
  | none => (.error .ETFNotFound, s)
  | some template =>
    let user_balance := s.balances caller
    if user_balance < (investment_amount : Int) then (.error .InsufficientBalance, s)
    else
      let etf_id := s.next_etf_id
      let s := { s with next_etf_id := s.next_etf_id + 1 }
      let etf : ETF :=
        { id := etf_id, name := template.name, description := template.description
          creator := caller, allocations := template.allocations
          is_template := false, total_value := investment_amount }
      let s := if investment_amount > 0 then
          { s with balances := Function.update s.balances caller (user_balance - investment_amount) }
        else s
      let s := { s with etfs := Function.update s.etfs etf_id (some etf) }
      let user_etfs := s.user_etf_subscriptions caller ++ [etf_id]
      let s := { s with user_etf_subscriptions := Function.update s.user_etf_subscriptions caller user_etfs }
      (.ok etf_id, s)

/-- src/contract/lib.rs: `get_etf`. -/
def get_etf (s : ShariaPlatform) (etf_id : Nat) : Option ETF :=
  s.etfs etf_id

/-- src/contract/lib.rs: `get_template_etfs`: iterates the fixed key range
`1..=10` and keeps the stored templates, in key order. -/
def get_template_etfs (s : ShariaPlatform) : List ETF :=
  (List.range 10).filterMap fun i => s.template_etfs (i + 1)

/-- src/contract/lib.rs: `get_user_etfs`. -/
def get_user_etfs (s : ShariaPlatform) (user : Nat) : List ETF :=
  (s.user_etf_subscriptions user).filterMap s.etfs

/-- src/contract/lib.rs: `invest_in_etf`. -/
def invest_in_etf (s : ShariaPlatform) (caller : Nat) (etf_id : Nat) (amount : Nat) :
    Except Error Unit × ShariaPlatform :=
  let amount := u128 amount
  match s.etfs etf_id with
  | none => (.error .ETFNotFound, s)
  | some etf =>
    if etf.creator ≠ caller then (.error .ETFNotOwnedByUser, s)
    else
      let user_balance := s.balances caller
      if user_balance < (amount : Int) then (.error .InsufficientBalance, s)
      else
        let s := { s with balances := Function.update s.balances caller (user_balance - amount) }
        let etf := { etf with total_value := u128 (etf.total_value + amount) }
        let s := { s with etfs := Function.update s.etfs etf_id (some etf) }
        (.ok (), s)

/-- src/contract/lib.rs: `create_dca_order`; `block_timestamp` and
`block_number` are the environment readings of the call. -/
def create_dca_order (s : ShariaPlatform) (caller block_timestamp block_number : Nat)
    (coin_id : String)
    (amount_per_interval interval_blocks total_intervals start_timestamp : Nat) :
    Except Error Nat × ShariaPlatform :=
  let block_timestamp := u64 block_timestamp
  let block_number := u32 block_number
  let amount_per_interval := u128 amount_per_interval
  let interval_blocks := u32 interval_blocks
  let total_intervals := u32 total_intervals
  let start_timestamp := u64 start_timestamp
  if !is_sharia_compliant s coin_id then (.error .NotShariaCompliant, s)
  else if start_timestamp < block_timestamp then (.error .InvalidStartTime, s)
  else
    let order_id := s.next_dca_order_id
    let s := { s with next_dca_order_id := s.next_dca_order_id + 1 }
    let order : DCAOrder :=
      { id := order_id, owner := caller, coin_id := coin_id
        amount_per_interval := amount_per_interval
        interval_blocks := interval_blocks
        intervals_completed := 0
        total_intervals := total_intervals
        next_execution_block := u32 (block_number + interval_blocks)
        start_timestamp := start_timestamp
        is_active := true }
    let s := { s with dca_orders := Function.update s.dca_orders order_id (some order) }
    let user_orders := s.user_dca_orders caller ++ [order_id]
    let s := { s with user_dca_orders := Function.update s.user_dca_orders caller user_orders }
    (.ok order_id, s)

/-- src/contract/lib.rs: `execute_dca_order` (callable by anyone). -/
def execute_dca_order (s : ShariaPlatform) (block_timestamp block_number : Nat)
    (order_id : Nat) : Except Error Unit × ShariaPlatform :=
  let block_timestamp := u64 block_timestamp
  let block_number := u32 block_number
  match s.dca_orders order_id with
  | none => (.error .DCAOrderNotFound, s)
  | some order =>
    if !order.is_active then (.error .OrderInactive, s)
    else if block_timestamp < order.start_timestamp then (.error .OrderNotReady, s)
    else if block_number < order.next_execution_block then (.error .OrderNotReady, s)
    else
      let user_balance := s.balances order.owner
      if user_balance < (order.amount_per_interval : Int) then (.error .InsufficientBalance, s)
      else
        let s := { s with balances := Function.update s.balances order.owner (user_balance - order.amount_per_interval) }
        let order := { order with intervals_completed := order.intervals_completed + 1 }
        let order := { order with next_execution_block := u32 (block_number + order.interval_blocks) }
        let order :=
          if 0 < order.total_intervals ∧ order.total_intervals ≤ order.intervals_completed then
            { order with is_active := false }
          else order
        let s := { s with dca_orders := Function.update s.dca_orders order_id (some order) }
        (.ok (), s)

/-- src/contract/lib.rs: `cancel_dca_order`. -/
def cancel_dca_order (s : ShariaPlatform) (caller : Nat) (order_id : Nat) :
    Except Error Unit × ShariaPlatform :=
  match s.dca_orders order_id with
  | none => (.error .DCAOrderNotFound, s)
  | some order =>
    if order.owner ≠ caller then (.error .Unauthorized, s)
    else
      let order := { order with is_active := false }
      (.ok (), { s with dca_orders := Function.update s.dca_orders order_id (some order) })

/-- src/contract/lib.rs: `get_dca_order`. -/
def get_dca_order (s : ShariaPlatform) (order_id : Nat) : Option DCAOrder :=
  s.dca_orders order_id

/-- src/contract/lib.rs: `get_user_dca_orders`. -/
def get_user_dca_orders (s : ShariaPlatform) (user : Nat) : List DCAOrder :=
  (s.user_dca_orders user).filterMap s.dca_orders

/-- src/contract/lib.rs: `invest_once`. -/
def invest_once (s : ShariaPlatform) (caller : Nat) (coin_id : String) (amount : Nat) :
    Except Error Unit × ShariaPlatform :=
  let amount := u128 amount
  if !is_sharia_compliant s coin_id then (.error .NotShariaCompliant, s)
  else
    let user_balance := s.balances caller
    if user_balance < (amount : Int) then (.error .InsufficientBalance, s)
    else
      (.ok (), { s with balances := Function.update s.balances caller (user_balance - amount) })

/-- src/contract/lib.rs: `deposit`; `transferred_value` is the `U256` value
attached to the call, converted with `try_into().unwrap_or(0)` and added to
the stored `u128` balance (the addition wraps modulo `2 ^ 128`). -/
def deposit (s : ShariaPlatform) (caller transferred_value : Nat) :
    Except Error Unit × ShariaPlatform :=
  let current_balance := s.balances caller
  let amount_u128 : Nat := if transferred_value < 2 ^ 128 then transferred_value else 0
  (.ok (), { s with balances := Function.update s.balances caller ((current_balance + (amount_u128 : Int)) % 2 ^ 128) })

/-- src/contract/lib.rs: `get_balance`. -/
def get_balance (s : ShariaPlatform) (user : Nat) : Int :=
  s.balances user

/-- One call of the mutating public surface, together with the environment
readings the call observes. -/
inductive Op where
  | register_sharia_coin (caller : Nat) (coin_id name symbol compliance_reason : String)
  | remove_sharia_coin (caller : Nat) (coin_id : String)
  | create_etf (caller : Nat) (name description : String) (allocations : List (String × Nat))
  | create_template_etf (caller : Nat) (name description : String)
      (allocations : List (String × Nat))
  | subscribe_to_template_etf (caller template_etf_id investment_amount : Nat)
  | invest_in_etf (caller etf_id amount : Nat)
  | create_dca_order (caller block_timestamp block_number : Nat) (coin_id : String)
      (amount_per_interval interval_blocks total_intervals start_timestamp : Nat)
  | execute_dca_order (block_timestamp block_number order_id : Nat)
  | cancel_dca_order (caller order_id : Nat)
  | invest_once (caller : Nat) (coin_id : String) (amount : Nat)
  | deposit (caller transferred_value : Nat)

/-- The error component of a call result. -/
def errOf {α : Type} : Except Error α → Option Error
  | .error e => some e
  | .ok _ => none

/-- Dispatch one call: the reported error (if any) and the post-state. -/
def applyOp (s : ShariaPlatform) : Op → Option Error × ShariaPlatform
  | .register_sharia_coin c cid n sym r =>
      let p := register_sharia_coin s c cid n sym r
      (errOf p.1, p.2)
  | .remove_sharia_coin c cid =>
      let p := remove_sharia_coin s c cid
      (errOf p.1, p.2)
  | .create_etf c n d l =>
      let p := create_etf s c n d l
      (errOf p.1, p.2)
  | .create_template_etf c n d l =>
      let p := create_template_etf s c n d l
      (errOf p.1, p.2)
  | .subscribe_to_template_etf c tid amt =>
      let p := subscribe_to_template_etf s c tid amt
      (errOf p.1, p.2)
  | .invest_in_etf c eid amt =>
      let p := invest_in_etf s c eid amt
      (errOf p.1, p.2)
  | .create_dca_order c bt bn cid amt ib ti st =>
      let p := create_dca_order s c bt bn cid amt ib ti st
      (errOf p.1, p.2)
  | .execute_dca_order bt bn oid =>
      let p := execute_dca_order s bt bn oid
      (errOf p.1, p.2)
  | .cancel_dca_order c oid =>
      let p := cancel_dca_order s c oid
      (errOf p.1, p.2)
  | .invest_once c cid amt =>
      let p := invest_once s c cid amt
      (errOf p.1, p.2)
  | .deposit c v =>
      let p := deposit s c v
      (errOf p.1, p.2)

/-- The state transition of one call. -/
def stepOp (s : ShariaPlatform) (op : Op) : ShariaPlatform :=
  (applyOp s op).2

/-- The states reachable from a freshly deployed contract by any sequence
of calls of the mutating public surface. -/
inductive Reachable : ShariaPlatform → Prop where
  | init (caller : Nat) : Reachable (ShariaPlatform.new caller)
  | next {s : ShariaPlatform} (op : Op) : Reachable s → Reachable (stepOp s op)

/-- The inductive invariant of the contract: balances are never negative,
a DCA order with a positive interval limit never runs past the limit (and
strictly below it while active), stored DCA order keys stay below the id
allocator, and a stored template carries its storage key as its id. -/
structure Inv (s : ShariaPlatform) : Prop where
  bal_nonneg : ∀ a, 0 ≤ s.balances a
  dca_lt : ∀ i o, s.dca_orders i = some o → o.is_active = true →
    0 < o.total_intervals → o.intervals_completed < o.total_intervals
  dca_le : ∀ i o, s.dca_orders i = some o →
    0 < o.total_intervals → o.intervals_completed ≤ o.total_intervals
  dca_key_lt : ∀ i o, s.dca_orders i = some o → i < s.next_dca_order_id
  tpl_id : ∀ i t, s.template_etfs i = some t → t.id = i

/-- A freshly deployed contract (owner account 0) with the asset "BTC"
registered by the owner. -/
def sBTC : ShariaPlatform :=
  (register_sharia_coin (ShariaPlatform.new 0) 0 "BTC" "Bitcoin" "BTC" "halal").2

/-- State `sBTC` after user 7 deposited 1000 and created a DCA order for "BTC"
paying 100 per interval of 10 blocks, 3 intervals in total, at block 0 and
timestamp 0; the order gets id 1 and first execution block 10. -/
def sDca : ShariaPlatform :=
  (create_dca_order (deposit sBTC 7 1000).2 7 0 0 "BTC" 100 10 3 0).2

/-- The DCA order stored in `sDca` at key 1. -/
def oDca : DCAOrder :=
  { id := 1, owner := 7, coin_id := "BTC", amount_per_interval := 100
    interval_blocks := 10, intervals_completed := 0, total_intervals := 3
    next_execution_block := 10, start_timestamp := 0, is_active := true }

/-- An allocation list of 258 `u8` percentages whose true sum is 65636,
which is congruent to 100 modulo `2 ^ 16`. -/
def L258 : List (String × Nat) :=
  List.replicate 257 ("BTC", 255) ++ [("BTC", 101)]

/-- State `sBTC` after the owner created eleven further templates; the shared id
counter walks from 1 to 11, so the last one is stored at key 11. -/
def sTpl : ShariaPlatform :=
  List.foldl stepOp sBTC
    (List.replicate 11 (Op.create_template_etf 0 "T" "T" [("BTC", 100)]))

/-- The template stored in `sTpl` at key 11. -/
def tC10 : ETF :=
  { id := 11, name := "T", description := "T", creator := 0
    allocations := [("BTC", 100)], is_template := true, total_value := 0 }

/-- A pointwise property survives a map insertion whose new value satisfies it. -/
lemma update_some_forall {β : Type} {P : Nat → β → Prop} {f : Nat → Option β}
    (h : ∀ i o, f i = some o → P i o) {k : Nat} {v : β} (hv : P k v) :
    ∀ i o, Function.update f k (some v) i = some o → P i o := by
  intro i o hi
  rcases eq_or_ne i k with rfl | hne
  · rw [Function.update_same] at hi
    cases hi
    exact hv
  · rw [Function.update_noteq hne] at hi
    exact h i o hi

/-- Nonnegativity survives writing a nonnegative balance. -/
lemma update_nonneg {f : Nat → Int} (h : ∀ a, 0 ≤ f a) {k : Nat} {v : Int}
    (hv : 0 ≤ v) : ∀ a, 0 ≤ Function.update f k v a := by
  intro a
  rcases eq_or_ne a k with rfl | hne
  · rw [Function.update_same]; exact hv
  · rw [Function.update_noteq hne]; exact h a

/-- The invariant holds after deployment. -/
lemma inv_new (c : Nat) : Inv (ShariaPlatform.new c) := by
  refine ⟨?_, ?_, ?_, ?_, ?_⟩
  · intro a
    simp [ShariaPlatform.new, initialize_template_etfs]
  · intro i o h
    simp [ShariaPlatform.new, initialize_template_etfs] at h
  · intro i o h
    simp [ShariaPlatform.new, initialize_template_etfs] at h
  · intro i o h
    simp [ShariaPlatform.new, initialize_template_etfs] at h
  · intro i t h
    simp only [ShariaPlatform.new, initialize_template_etfs, Function.update_apply] at h
    split_ifs at h with h3 h2 h1
    · cases h; subst h3; rfl
    · cases h; subst h2; rfl
    · cases h; subst h1; rfl

/-- Operation `register_sharia_coin` preserves the invariant. -/
lemma inv_register_sharia_coin (s : ShariaPlatform) (c : Nat)
    (cid n sym r : String) (h : Inv s) :
    Inv (register_sharia_coin s c cid n sym r).2 := by
  cases h0 : ensure_owner s c with
  | error e => simp only [register_sharia_coin, h0]; exact h
  | ok u =>
    simp only [register_sharia_coin, h0]
    split_ifs <;>
      exact ⟨h.bal_nonneg, h.dca_lt, h.dca_le, h.dca_key_lt, h.tpl_id⟩

/-- Operation `remove_sharia_coin` preserves the invariant. -/
lemma inv_remove_sharia_coin (s : ShariaPlatform) (c : Nat) (cid : String)
    (h : Inv s) : Inv (remove_sharia_coin s c cid).2 := by
  cases h0 : ensure_owner s c with
  | error e => simp only [remove_sharia_coin, h0]; exact h
  | ok u =>
    simp only [remove_sharia_coin, h0]
    split_ifs
    · exact ⟨h.bal_nonneg, h.dca_lt, h.dca_le, h.dca_key_lt, h.tpl_id⟩
    · exact h

/-- Operation `create_etf` preserves the invariant. -/
lemma inv_create_etf (s : ShariaPlatform) (c : Nat) (n d : String)
    (l : List (String × Nat)) (h : Inv s) : Inv (create_etf s c n d l).2 := by
  simp only [create_etf]
  split_ifs
  · exact h
  · exact h
  · exact ⟨h.bal_nonneg, h.dca_lt, h.dca_le, h.dca_key_lt, h.tpl_id⟩

/-- Operation `create_template_etf` preserves the invariant. -/
lemma inv_create_template_etf (s : ShariaPlatform) (c : Nat) (n d : String)
    (l : List (String × Nat)) (h : Inv s) :
    Inv (create_template_etf s c n d l).2 := by
  cases h0 : ensure_owner s c with
  | error e => simp only [create_template_etf, h0]; exact h
  | ok u =>
    simp only [create_template_etf, h0]
    split_ifs
    · exact h
    · exact h
    · exact ⟨h.bal_nonneg, h.dca_lt, h.dca_le, h.dca_key_lt,
        update_some_forall h.tpl_id rfl⟩

/-- Operation `subscribe_to_template_etf` preserves the invariant. -/
lemma inv_subscribe_to_template_etf (s : ShariaPlatform) (c tid amt : Nat)
    (h : Inv s) : Inv (subscribe_to_template_etf s c tid amt).2 := by
  cases h0 : s.template_etfs tid with
  | none => simp only [subscribe_to_template_etf, h0]; exact h
  | some template =>
    simp only [subscribe_to_template_etf, h0]
    split_ifs with h1 h2
    · exact h
    · refine ⟨update_nonneg h.bal_nonneg ?_, h.dca_lt, h.dca_le, h.dca_key_lt, h.tpl_id⟩
      rw [not_lt] at h1
      omega
    · exact ⟨h.bal_nonneg, h.dca_lt, h.dca_le, h.dca_key_lt, h.tpl_id⟩

/-- Operation `invest_in_etf` preserves the invariant. -/
lemma inv_invest_in_etf (s : ShariaPlatform) (c eid amt : Nat) (h : Inv s) :
    Inv (invest_in_etf s c eid amt).2 := by
  cases h0 : s.etfs eid with
  | none => simp only [invest_in_etf, h0]; exact h
  | some etf =>
    simp only [invest_in_etf, h0]
    split_ifs with h1 h2
    · exact h
    · exact h
    · refine ⟨update_nonneg h.bal_nonneg ?_, h.dca_lt, h.dca_le, h.dca_key_lt, h.tpl_id⟩
      rw [not_lt] at h2
      omega

/-- Operation `create_dca_order` preserves the invariant. -/
lemma inv_create_dca_order (s : ShariaPlatform) (c bt bn : Nat) (cid : String)
    (amt ib ti st : Nat) (h : Inv s) :
    Inv (create_dca_order s c bt bn cid amt ib ti st).2 := by
  simp only [create_dca_order]
  split_ifs
  · exact h
  · exact h
  · refine ⟨h.bal_nonneg, ?_, ?_, ?_, h.tpl_id⟩
    · exact update_some_forall h.dca_lt (by intro _ hpos; simpa using hpos)
    · exact update_some_forall h.dca_le (by intro hpos; simp)
    · intro i o hi
      dsimp only at hi ⊢
      rcases eq_or_ne i s.next_dca_order_id with rfl | hne
      · omega
      · rw [Function.update_noteq hne] at hi
        have := h.dca_key_lt i o hi
        omega

/-- Operation `execute_dca_order` preserves the invariant. -/
lemma inv_execute_dca_order (s : ShariaPlatform) (bt bn oid : Nat) (h : Inv s) :
    Inv (execute_dca_order s bt bn oid).2 := by
  cases h0 : s.dca_orders oid with
  | none => simp only [execute_dca_order, h0]; exact h
  | some order =>
    simp only [execute_dca_order, h0]
    split_ifs with h1 h2 h3 h4 h5
    · exact h
    · exact h
    · exact h
    · exact h
    all_goals {
      have hact : order.is_active = true := by
        revert h1
        cases order.is_active <;> simp
      have hlt : 0 < order.total_intervals → order.intervals_completed < order.total_intervals :=
        h.dca_lt oid order h0 hact
      refine ⟨?_, ?_, ?_, ?_, h.tpl_id⟩
      · refine update_nonneg h.bal_nonneg ?_
        dsimp only
        rw [not_lt] at h4
        omega
      · refine update_some_forall h.dca_lt ?_
        intro hactive hpos
        dsimp only at hactive hpos ⊢
        first
          | exact absurd hactive (by decide)
          | omega
      · refine update_some_forall h.dca_le ?_
        intro hpos
        dsimp only at hpos ⊢
        have := hlt hpos
        omega
      · intro i o hi
        dsimp only at hi ⊢
        rcases eq_or_ne i oid with rfl | hne
        · exact h.dca_key_lt i order h0
        · rw [Function.update_noteq hne] at hi
          exact h.dca_key_lt i o hi
    }

/-- Operation `cancel_dca_order` preserves the invariant. -/
lemma inv_cancel_dca_order (s : ShariaPlatform) (c oid : Nat) (h : Inv s) :
    Inv (cancel_dca_order s c oid).2 := by
  cases h0 : s.dca_orders oid with
  | none => simp only [cancel_dca_order, h0]; exact h
  | some order =>
    simp only [cancel_dca_order, h0]
    split_ifs with h1
    · exact h
    · refine ⟨h.bal_nonneg, ?_, ?_, ?_, h.tpl_id⟩
      · refine update_some_forall h.dca_lt ?_
        intro hfalse
        dsimp only at hfalse
        simp at hfalse
      · refine update_some_forall h.dca_le ?_
        intro hpos
        dsimp only at hpos ⊢
        exact h.dca_le oid order h0 hpos
      · intro i o hi
        dsimp only at hi ⊢
        rcases eq_or_ne i oid with rfl | hne
        · exact h.dca_key_lt i order h0
        · rw [Function.update_noteq hne] at hi
          exact h.dca_key_lt i o hi

/-- Operation `invest_once` preserves the invariant. -/
lemma inv_invest_once (s : ShariaPlatform) (c : Nat) (cid : String) (amt : Nat)
    (h : Inv s) : Inv (invest_once s c cid amt).2 := by
  simp only [invest_once]
  split_ifs with h1 h2
  · exact h
  · exact h
  · refine ⟨update_nonneg h.bal_nonneg ?_, h.dca_lt, h.dca_le, h.dca_key_lt, h.tpl_id⟩
    rw [not_lt] at h2
    omega

/-- Operation `deposit` preserves the invariant. -/
lemma inv_deposit (s : ShariaPlatform) (c v : Nat) (h : Inv s) :
    Inv (deposit s c v).2 := by
  simp only [deposit]
  refine ⟨update_nonneg h.bal_nonneg ?_, h.dca_lt, h.dca_le, h.dca_key_lt, h.tpl_id⟩
  exact Int.emod_nonneg _ (by norm_num)

/-- Every call preserves the invariant. -/
lemma inv_step (s : ShariaPlatform) (op : Op) (h : Inv s) : Inv (stepOp s op) := by
  cases op <;>
    simp only [stepOp, applyOp] <;>
    first
      | exact inv_register_sharia_coin _ _ _ _ _ _ h
      | exact inv_remove_sharia_coin _ _ _ h
      | exact inv_create_etf _ _ _ _ _ h
      | exact inv_create_template_etf _ _ _ _ _ h
      | exact inv_subscribe_to_template_etf _ _ _ _ h
      | exact inv_invest_in_etf _ _ _ _ h
      | exact inv_create_dca_order _ _ _ _ _ _ _ _ _ h
      | exact inv_execute_dca_order _ _ _ _ h
      | exact inv_cancel_dca_order _ _ _ h
      | exact inv_invest_once _ _ _ _ h
      | exact inv_deposit _ _ _ h

/-- Every reachable state satisfies the invariant. -/
lemma reachable_inv {s : ShariaPlatform} (h : Reachable s) : Inv s := by
  induction h with
  | init c => exact inv_new c
  | next op _ ih => exact inv_step _ op ih

/-- Reachability is preserved by running any list of calls. -/
lemma reachable_foldl {s : ShariaPlatform} (h : Reachable s) (l : List Op) :
    Reachable (List.foldl stepOp s l) := by
  induction l generalizing s with
  | nil => exact h
  | cons op rest ih => exact ih (Reachable.next op h)

/-- State `sBTC` is a run of the public surface. -/
lemma reachable_sBTC : Reachable sBTC :=
  Reachable.next (.register_sharia_coin 0 "BTC" "Bitcoin" "BTC" "halal") (Reachable.init 0)

/-- State `sDca` is a run of the public surface. -/
lemma reachable_sDca : Reachable sDca :=
  Reachable.next (.create_dca_order 7 0 0 "BTC" 100 10 3 0)
    (Reachable.next (.deposit 7 1000) reachable_sBTC)

/-- State `sTpl` is a run of the public surface. -/
lemma reachable_sTpl : Reachable sTpl :=
  reachable_foldl reachable_sBTC _

/-- Operation `register_sharia_coin` never touches the DCA order map. -/
lemma register_keeps_dca (s : ShariaPlatform) (c : Nat) (cid n sym r : String) :
    (register_sharia_coin s c cid n sym r).2.dca_orders = s.dca_orders := by
  cases h0 : ensure_owner s c <;> simp only [register_sharia_coin, h0] <;>
    split_ifs <;> rfl

/-- Operation `remove_sharia_coin` never touches the DCA order map. -/
lemma remove_keeps_dca (s : ShariaPlatform) (c : Nat) (cid : String) :
    (remove_sharia_coin s c cid).2.dca_orders = s.dca_orders := by
  cases h0 : ensure_owner s c <;> simp only [remove_sharia_coin, h0] <;>
    split_ifs <;> rfl

/-- Operation `create_etf` never touches the DCA order map. -/
lemma create_etf_keeps_dca (s : ShariaPlatform) (c : Nat) (n d : String)
    (l : List (String × Nat)) : (create_etf s c n d l).2.dca_orders = s.dca_orders := by
  simp only [create_etf]
  split_ifs <;> rfl

/-- Operation `create_template_etf` never touches the DCA order map. -/
lemma create_template_keeps_dca (s : ShariaPlatform) (c : Nat) (n d : String)
    (l : List (String × Nat)) :
    (create_template_etf s c n d l).2.dca_orders = s.dca_orders := by
  cases h0 : ensure_owner s c <;> simp only [create_template_etf, h0] <;>
    split_ifs <;> rfl

/-- Operation `subscribe_to_template_etf` never touches the DCA order map. -/
lemma subscribe_keeps_dca (s : ShariaPlatform) (c tid amt : Nat) :
    (subscribe_to_template_etf s c tid amt).2.dca_orders = s.dca_orders := by
  cases h0 : s.template_etfs tid <;> simp only [subscribe_to_template_etf, h0] <;>
    split_ifs <;> rfl

/-- Operation `invest_in_etf` never touches the DCA order map. -/
lemma invest_in_etf_keeps_dca (s : ShariaPlatform) (c eid amt : Nat) :
    (invest_in_etf s c eid amt).2.dca_orders = s.dca_orders := by
  cases h0 : s.etfs eid <;> simp only [invest_in_etf, h0] <;>
    split_ifs <;> rfl

/-- Operation `invest_once` never touches the DCA order map. -/
lemma invest_once_keeps_dca (s : ShariaPlatform) (c : Nat) (cid : String) (amt : Nat) :
    (invest_once s c cid amt).2.dca_orders = s.dca_orders := by
  simp only [invest_once]
  split_ifs <;> rfl

/-- Operation `deposit` never touches the DCA order map. -/
lemma deposit_keeps_dca (s : ShariaPlatform) (c v : Nat) :
    (deposit s c v).2.dca_orders = s.dca_orders := by
  simp only [deposit]

/-- Claim C2: on a fresh contract with "BTC" registered, the first
`create_etf` by user 7 with allocations `[("BTC", 100)]` succeeds with
total_value 0, but it returns basket id 1, not id 4 as the claim states:
the constructor seeds templates 1..3 without advancing `next_etf_id`. -/
theorem first_user_etf_gets_id_one :
    (create_etf sBTC 7 "My ETF" "first basket" [("BTC", 100)]).1 = .ok 1 ∧
    ((create_etf sBTC 7 "My ETF" "first basket" [("BTC", 100)]).2.etfs 1).map
      ETF.total_value = some 0 ∧
    (1 : Nat) ≠ 4 :=
  ⟨rfl, rfl, by decide⟩

/-- Claim C5: basket and template ids are not unique.  After deployment
`next_etf_id` is still 1 although templates 1..3 are stored, so the first
owner-created template is assigned id 1 again and overwrites seeded
template 1, and the first user basket also receives id 1, equal to the id
of seeded template 1. -/
theorem template_id_reused :
    (ShariaPlatform.new 0).next_etf_id = 1 ∧
    ((ShariaPlatform.new 0).template_etfs 1).map ETF.id = some 1 ∧
    ((ShariaPlatform.new 0).template_etfs 1).map ETF.name = some "Major Sharia Coins ETF" ∧
    (create_template_etf sBTC 0 "Fresh Template" "reuses id 1" [("BTC", 100)]).1 = .ok 1 ∧
    ((create_template_etf sBTC 0 "Fresh Template" "reuses id 1" [("BTC", 100)]).2.template_etfs 1).map
      ETF.name = some "Fresh Template" ∧
    (create_etf sBTC 7 "User Basket" "same id as template 1" [("BTC", 100)]).1 = .ok 1 :=
  ⟨rfl, rfl, rfl, rfl, rfl, rfl⟩

/-- Claim C6 counterexample: depositing 1 on top of a balance of
`2 ^ 128 - 1` yields balance 0, so the credit path wraps around instead of
saturating at the maximum value. -/
theorem deposit_wraps_at_max :
    (deposit (ShariaPlatform.new 0) 7 (2 ^ 128 - 1)).2.balances 7 = 2 ^ 128 - 1 ∧
    (deposit (deposit (ShariaPlatform.new 0) 7 (2 ^ 128 - 1)).2 7 1).2.balances 7 = 0 ∧
    (0 : Int) ≠ 2 ^ 128 - 1 :=
  ⟨rfl, rfl, by decide⟩

/-- Claim C6 (amended): `deposit` always succeeds and unconditionally adds
the transferred value (truncated to 0 if it exceeds the `u128` range) to
the stored balance of the caller modulo `2 ^ 128` — wrapping, not saturating —
and leaves every other balance unchanged. -/
theorem deposit_unconditional_add_mod (s : ShariaPlatform) (c v : Nat) :
    (deposit s c v).1 = .ok () ∧
    (deposit s c v).2.balances c =
      (s.balances c + (if v < 2 ^ 128 then (v : Int) else 0)) % 2 ^ 128 ∧
    (∀ a, a ≠ c → (deposit s c v).2.balances a = s.balances a) := by
  refine ⟨rfl, ?_, ?_⟩
  · simp only [deposit]
    rw [Function.update_same]
    split_ifs <;> simp
  · intro a ha
    simp only [deposit]
    rw [Function.update_noteq ha]

/-- Claim C6 (amended) witness at a concrete deposit. -/
theorem deposit_unconditional_add_mod_witness :
    (deposit sBTC 7 1000).1 = .ok () ∧
    (deposit sBTC 7 1000).2.balances 7 =
      (sBTC.balances 7 + (if 1000 < 2 ^ 128 then (1000 : Int) else 0)) % 2 ^ 128 := by
  have h := deposit_unconditional_add_mod sBTC 7 1000
  exact ⟨h.1, h.2.1⟩

/-- Claim C3 counterexample: the order of `sDca` is active, ready and
funded at block 12, and executing there succeeds; but the new
`next_execution_block` is 22 = 12 + 10, not the old value 10 plus the
interval 10. -/
theorem execute_does_not_advance_by_interval :
    sDca.balances 7 = 1000 ∧
    (sDca.dca_orders 1).map DCAOrder.next_execution_block = some 10 ∧
    (sDca.dca_orders 1).map DCAOrder.interval_blocks = some 10 ∧
    (sDca.dca_orders 1).map DCAOrder.is_active = some true ∧
    (execute_dca_order sDca 0 12 1).1 = .ok () ∧
    ((execute_dca_order sDca 0 12 1).2.dca_orders 1).map DCAOrder.next_execution_block
      = some 22 ∧
    (22 : Nat) ≠ 10 + 10 :=
  ⟨rfl, rfl, rfl, rfl, rfl, rfl, by decide⟩

/-- Claim C4 counterexample: `L258` has 258 `u8` percentages whose sum is
65636 ≠ 100, yet `create_etf` accepts it, because the `u16` sum wraps to
65636 mod 2^16 = 100; the stored percentages of the created basket sum to
65636, not 100. -/
theorem create_etf_accepts_wrapped_sum :
    (L258.map Prod.snd).sum = 65636 ∧
    (65636 : Nat) ≠ 100 ∧
    (create_etf sBTC 7 "Big" "wrapping sum" L258).1 = .ok 1 ∧
    ((create_etf sBTC 7 "Big" "wrapping sum" L258).2.etfs 1).map
      (fun e => (e.allocations.map Prod.snd).sum) = some 65636 :=
  ⟨rfl, by decide, rfl, rfl⟩

/-- A successful cancellation writes back the order with `is_active` cleared. -/
lemma cancel_dca_order_success (t : ShariaPlatform) (c oid : Nat) (o : DCAOrder)
    (ho : t.dca_orders oid = some o) (hown : o.owner = c) :
    cancel_dca_order t c oid =
      (.ok (), { t with dca_orders := Function.update t.dca_orders oid (some { o with is_active := false }) }) := by
  simp only [cancel_dca_order, ho]
  rw [if_neg (by simp [hown])]

/-- Claim C9: cancelling a DCA order as its owner always succeeds — also
when the order is already inactive — and a second consecutive cancel call
by the owner succeeds and leaves the entire state unchanged. -/
theorem cancel_idempotent (s : ShariaPlatform) (c oid : Nat) (o : DCAOrder)
    (ho : s.dca_orders oid = some o) (hown : o.owner = c) :
    (cancel_dca_order s c oid).1 = .ok () ∧
    (cancel_dca_order (cancel_dca_order s c oid).2 c oid).1 = .ok () ∧
    (cancel_dca_order (cancel_dca_order s c oid).2 c oid).2 = (cancel_dca_order s c oid).2 := by
  have hc1 := cancel_dca_order_success s c oid o ho hown
  have h1 : (cancel_dca_order s c oid).2.dca_orders oid = some { o with is_active := false } := by
    rw [hc1]
    exact Function.update_same _ _ _
  have hc2 := cancel_dca_order_success (cancel_dca_order s c oid).2 c oid
    { o with is_active := false } h1 hown
  refine ⟨by rw [hc1], by rw [hc2], ?_⟩
  rw [hc2, hc1]
  simp only [Function.update_idem]

/-- Claim C9 witness: the double cancel on the concrete order of `sDca`. -/
theorem cancel_idempotent_witness :
    (cancel_dca_order sDca 7 1).1 = .ok () ∧
    (cancel_dca_order (cancel_dca_order sDca 7 1).2 7 1).1 = .ok () ∧
    (cancel_dca_order (cancel_dca_order sDca 7 1).2 7 1).2 = (cancel_dca_order sDca 7 1).2 :=
  cancel_idempotent sDca 7 1 oDca rfl rfl

/-- Claim C3 (amended): a successful execution of an active, ready and
funded DCA order debits the owner by `amount_per_interval`, increments
`intervals_completed`, sets `next_execution_block` to the current block
plus `interval_blocks` (not to the old `next_execution_block` plus
`interval_blocks`), clears `is_active` exactly when `total_intervals` is
positive and the incremented count reaches it, and touches no other
balance. -/
theorem execute_dca_order_success_effects (s : ShariaPlatform) (bt bn oid : Nat)
    (o : DCAOrder) (ho : s.dca_orders oid = some o) (hact : o.is_active = true)
    (hts : o.start_timestamp ≤ u64 bt) (hblk : o.next_execution_block ≤ u32 bn)
    (hbal : (o.amount_per_interval : Int) ≤ s.balances o.owner) :
    (execute_dca_order s bt bn oid).1 = .ok () ∧
    (execute_dca_order s bt bn oid).2.balances o.owner
      = s.balances o.owner - o.amount_per_interval ∧
    (execute_dca_order s bt bn oid).2.dca_orders oid = some
      { o with
        intervals_completed := o.intervals_completed + 1
        next_execution_block := u32 (u32 bn + o.interval_blocks)
        is_active :=
          if 0 < o.total_intervals ∧ o.total_intervals ≤ o.intervals_completed + 1
          then false else o.is_active } ∧
    (∀ a, a ≠ o.owner → (execute_dca_order s bt bn oid).2.balances a = s.balances a) := by
  simp only [execute_dca_order, ho]
  rw [if_neg (by simp [hact]), if_neg (by omega), if_neg (by omega), if_neg (by omega)]
  refine ⟨rfl, ?_, ?_, ?_⟩
  · dsimp only
    rw [Function.update_same]
  · dsimp only
    rw [Function.update_same]
    by_cases h5 : 0 < o.total_intervals ∧ o.total_intervals ≤ o.intervals_completed + 1 <;>
      simp [h5]
  · intro a ha
    dsimp only
    rw [Function.update_noteq ha]

/-- Claim C3 (amended) witness: the concrete execution at block 12. -/
theorem execute_dca_order_success_effects_witness :
    (execute_dca_order sDca 0 12 1).1 = .ok () ∧
    (execute_dca_order sDca 0 12 1).2.balances oDca.owner
      = sDca.balances oDca.owner - oDca.amount_per_interval ∧
    (execute_dca_order sDca 0 12 1).2.dca_orders 1 = some
      { oDca with
        intervals_completed := oDca.intervals_completed + 1
        next_execution_block := u32 (u32 12 + oDca.interval_blocks)
        is_active :=
          if 0 < oDca.total_intervals ∧ oDca.total_intervals ≤ oDca.intervals_completed + 1
          then false else oDca.is_active } := by
  have h := execute_dca_order_success_effects sDca 0 12 1 oDca rfl rfl
    (by decide) (by decide) (by decide)
  exact ⟨h.1, h.2.1, h.2.2.1⟩

/-- Claim C4 (amended): an allocation list whose wrapping `u16` percentage
sum differs from 100 is rejected by `create_etf` with `InvalidAllocation`
and leaves the state unchanged, and likewise by `create_template_etf` when
the caller is the owner (a non-owner fails earlier with `Unauthorized`);
contrapositively every created basket has `u16` percentage sum 100, but
only modulo `2 ^ 16`, as `create_etf_accepts_wrapped_sum` shows. -/
theorem invalid_allocation_rejected (s : ShariaPlatform) (c : Nat) (n d : String)
    (l : List (String × Nat)) (hsum : sum_u16 (normalize_allocations l) ≠ 100) :
    (create_etf s c n d l).1 = .error .InvalidAllocation ∧
    (create_etf s c n d l).2 = s ∧
    (c = s.owner →
      (create_template_etf s c n d l).1 = .error .InvalidAllocation ∧
      (create_template_etf s c n d l).2 = s) := by
  refine ⟨?_, ?_, ?_⟩
  · simp only [create_etf]
    rw [if_pos hsum]
  · simp only [create_etf]
    rw [if_pos hsum]
  · intro hc
    have howner : ensure_owner s c = .ok () := by
      simp [ensure_owner, hc]
    constructor <;> (simp only [create_template_etf, howner]; rw [if_pos hsum])

/-- Claim C4 (amended) witness: a submission summing to 99 is rejected by
both creation paths and creates nothing. -/
theorem invalid_allocation_rejected_witness :
    (create_etf sBTC 0 "N" "D" [("BTC", 99)]).1 = .error .InvalidAllocation ∧
    (create_etf sBTC 0 "N" "D" [("BTC", 99)]).2 = sBTC ∧
    (create_template_etf sBTC 0 "N" "D" [("BTC", 99)]).1 = .error .InvalidAllocation ∧
    (create_template_etf sBTC 0 "N" "D" [("BTC", 99)]).2 = sBTC := by
  have h := invalid_allocation_rejected sBTC 0 "N" "D" [("BTC", 99)] (by decide)
  exact ⟨h.1, h.2.1, (h.2.2 rfl).1, (h.2.2 rfl).2⟩

/-- Claim C1: in every reachable state all balances are nonnegative, and
on each spending path, once the preceding checks pass, a stored balance
below the debit amount makes the call fail with `InsufficientBalance` and
leave the state unchanged, so no debit ever drives a balance negative. -/
theorem balances_never_negative (s : ShariaPlatform) (hs : Reachable s) :
    (∀ a, 0 ≤ s.balances a) ∧
    (∀ c eid amt etf, s.etfs eid = some etf → etf.creator = c →
      s.balances c < (u128 amt : Int) →
      invest_in_etf s c eid amt = (.error .InsufficientBalance, s)) ∧
    (∀ c tid amt t, s.template_etfs tid = some t →
      s.balances c < (u128 amt : Int) →
      subscribe_to_template_etf s c tid amt = (.error .InsufficientBalance, s)) ∧
    (∀ c cid amt, is_sharia_compliant s cid = true →
      s.balances c < (u128 amt : Int) →
      invest_once s c cid amt = (.error .InsufficientBalance, s)) ∧
    (∀ bt bn oid o, s.dca_orders oid = some o → o.is_active = true →
      o.start_timestamp ≤ u64 bt → o.next_execution_block ≤ u32 bn →
      s.balances o.owner < (o.amount_per_interval : Int) →
      execute_dca_order s bt bn oid = (.error .InsufficientBalance, s)) := by
  have hinv := reachable_inv hs
  refine ⟨hinv.bal_nonneg, ?_, ?_, ?_, ?_⟩
  · intro c eid amt etf he hcr hlt
    simp only [invest_in_etf, he]
    rw [if_neg (by simp [hcr]), if_pos hlt]
  · intro c tid amt t ht hlt
    simp only [subscribe_to_template_etf, ht]
    rw [if_pos hlt]
  · intro c cid amt hcmp hlt
    simp only [invest_once, hcmp, Bool.not_true]
    rw [if_neg (by decide), if_pos hlt]
  · intro bt bn oid o ho hact hts hblk hlt
    simp only [execute_dca_order, ho]
    rw [if_neg (by simp [hact]), if_neg (by omega), if_neg (by omega), if_pos hlt]

/-- Claim C1 witness: in the reachable state `sDca` the balance of user 7
is nonnegative, and a standalone investment beyond the stored balance
fails with `InsufficientBalance` leaving the state unchanged. -/
theorem balances_never_negative_witness :
    0 ≤ sDca.balances 7 ∧
    invest_once sDca 7 "BTC" 2000 = (.error .InsufficientBalance, sDca) :=
  ⟨(balances_never_negative sDca reachable_sDca).1 7,
   (balances_never_negative sDca reachable_sDca).2.2.2.1 7 "BTC" 2000 rfl (by decide)⟩

/-- Claim C8: whenever a call of the mutating public surface reports an
error, the post-state equals the pre-state: every operation finishes all
its validation before its first write. -/
theorem errors_leave_state_unchanged (s : ShariaPlatform) (op : Op) (e : Error)
    (h : (applyOp s op).1 = some e) : (applyOp s op).2 = s := by
  cases op with
  | register_sharia_coin c cid n sym r =>
    simp only [applyOp] at h ⊢
    revert h
    cases h0 : ensure_owner s c <;> simp only [register_sharia_coin, h0] <;>
      (try split_ifs) <;> intro h <;> first | rfl | trivial | simp [errOf] at h
  | remove_sharia_coin c cid =>
    simp only [applyOp] at h ⊢
    revert h
    cases h0 : ensure_owner s c <;> simp only [remove_sharia_coin, h0] <;>
      (try split_ifs) <;> intro h <;> first | rfl | trivial | simp [errOf] at h
  | create_etf c n d l =>
    simp only [applyOp] at h ⊢
    revert h
    simp only [create_etf]
    (try split_ifs) <;> intro h <;> first | rfl | trivial | simp [errOf] at h
  | create_template_etf c n d l =>
    simp only [applyOp] at h ⊢
    revert h
    cases h0 : ensure_owner s c <;> simp only [create_template_etf, h0] <;>
      (try split_ifs) <;> intro h <;> first | rfl | trivial | simp [errOf] at h
  | subscribe_to_template_etf c tid amt =>
    simp only [applyOp] at h ⊢
    revert h
    cases h0 : s.template_etfs tid <;> simp only [subscribe_to_template_etf, h0] <;>
      (try split_ifs) <;> intro h <;> first | rfl | trivial | simp [errOf] at h
  | invest_in_etf c eid amt =>
    simp only [applyOp] at h ⊢
    revert h
    cases h0 : s.etfs eid <;> simp only [invest_in_etf, h0] <;>
      (try split_ifs) <;> intro h <;> first | rfl | trivial | simp [errOf] at h
  | create_dca_order c bt bn cid amt ib ti st =>
    simp only [applyOp] at h ⊢
    revert h
    simp only [create_dca_order]
    (try split_ifs) <;> intro h <;> first | rfl | trivial | simp [errOf] at h
  | execute_dca_order bt bn oid =>
    simp only [applyOp] at h ⊢
    revert h
    cases h0 : s.dca_orders oid <;> simp only [execute_dca_order, h0] <;>
      (try split_ifs) <;> intro h <;> first | rfl | trivial | simp [errOf] at h
  | cancel_dca_order c oid =>
    simp only [applyOp] at h ⊢
    revert h
    cases h0 : s.dca_orders oid <;> simp only [cancel_dca_order, h0] <;>
      (try split_ifs) <;> intro h <;> first | rfl | trivial | simp [errOf] at h
  | invest_once c cid amt =>
    simp only [applyOp] at h ⊢
    revert h
    simp only [invest_once]
    (try split_ifs) <;> intro h <;> first | rfl | trivial | simp [errOf] at h
  | deposit c v =>
    simp [applyOp, deposit, errOf] at h

/-- Claim C8 witness: a failing standalone investment on a fresh contract
leaves the state unchanged. -/
theorem errors_leave_state_unchanged_witness :
    (applyOp (ShariaPlatform.new 0) (Op.invest_once 7 "BTC" 5)).2 = ShariaPlatform.new 0 :=
  errors_leave_state_unchanged (ShariaPlatform.new 0) (Op.invest_once 7 "BTC" 5)
    Error.NotShariaCompliant rfl

/-- How one call can change a stored DCA order: either it is untouched, or
it was executed at its own id while active, or it was cancelled by its
owner. -/
lemma step_preserves_order (s : ShariaPlatform) (op : Op) (i : Nat) (o o' : DCAOrder)
    (hinv : Inv s) (ho : s.dca_orders i = some o)
    (h' : (stepOp s op).dca_orders i = some o') :
    o' = o ∨
    (∃ bt bn, op = .execute_dca_order bt bn i ∧ o.is_active = true ∧
      (o'.is_active = false →
        0 < o.total_intervals ∧ o.total_intervals ≤ o.intervals_completed + 1)) ∨
    (∃ c, op = .cancel_dca_order c i ∧ o.owner = c ∧ o' = { o with is_active := false }) := by
  cases op with
  | register_sharia_coin c cid n sym r =>
    left
    simp only [stepOp, applyOp, register_keeps_dca] at h'
    rw [ho] at h'
    exact (Option.some.inj h').symm
  | remove_sharia_coin c cid =>
    left
    simp only [stepOp, applyOp, remove_keeps_dca] at h'
    rw [ho] at h'
    exact (Option.some.inj h').symm
  | create_etf c n d l =>
    left
    simp only [stepOp, applyOp, create_etf_keeps_dca] at h'
    rw [ho] at h'
    exact (Option.some.inj h').symm
  | create_template_etf c n d l =>
    left
    simp only [stepOp, applyOp, create_template_keeps_dca] at h'
    rw [ho] at h'
    exact (Option.some.inj h').symm
  | subscribe_to_template_etf c tid amt =>
    left
    simp only [stepOp, applyOp, subscribe_keeps_dca] at h'
    rw [ho] at h'
    exact (Option.some.inj h').symm
  | invest_in_etf c eid amt =>
    left
    simp only [stepOp, applyOp, invest_in_etf_keeps_dca] at h'
    rw [ho] at h'
    exact (Option.some.inj h').symm
  | invest_once c cid amt =>
    left
    simp only [stepOp, applyOp, invest_once_keeps_dca] at h'
    rw [ho] at h'
    exact (Option.some.inj h').symm
  | deposit c v =>
    left
    simp only [stepOp, applyOp, deposit_keeps_dca] at h'
    rw [ho] at h'
    exact (Option.some.inj h').symm
  | create_dca_order c bt bn cid amt ib ti st =>
    left
    have hk := hinv.dca_key_lt i o ho
    simp only [stepOp, applyOp, create_dca_order] at h'
    split_ifs at h'
    · have h2 : s.dca_orders i = some o' := h'
      rw [ho] at h2
      exact (Option.some.inj h2).symm
    · have h2 : s.dca_orders i = some o' := h'
      rw [ho] at h2
      exact (Option.some.inj h2).symm
    · dsimp only at h'
      rw [Function.update_noteq (by omega)] at h'
      rw [ho] at h'
      exact (Option.some.inj h').symm
  | execute_dca_order bt bn oid =>
    simp only [stepOp, applyOp] at h'
    cases h0 : s.dca_orders oid with
    | none =>
      left
      simp only [execute_dca_order, h0] at h'
      have h2 : s.dca_orders i = some o' := h'
      rw [ho] at h2
      exact (Option.some.inj h2).symm
    | some order =>
      simp only [execute_dca_order, h0] at h'
      split_ifs at h' with h1 h2 h3 h4 h5
      · left
        have h6 : s.dca_orders i = some o' := h'
        rw [ho] at h6
        exact (Option.some.inj h6).symm
      · left
        have h6 : s.dca_orders i = some o' := h'
        rw [ho] at h6
        exact (Option.some.inj h6).symm
      · left
        have h6 : s.dca_orders i = some o' := h'
        rw [ho] at h6
        exact (Option.some.inj h6).symm
      · left
        have h6 : s.dca_orders i = some o' := h'
        rw [ho] at h6
        exact (Option.some.inj h6).symm
      · dsimp only at h'
        rcases eq_or_ne i oid with rfl | hne
        · rw [Function.update_same] at h'
          rw [ho] at h0
          injection h0 with h0
          subst h0
          have hact : o.is_active = true := by
            revert h1
            cases o.is_active <;> simp
          exact Or.inr (Or.inl ⟨bt, bn, rfl, hact, fun _ => h5⟩)
        · rw [Function.update_noteq hne] at h'
          rw [ho] at h'
          exact Or.inl (Option.some.inj h').symm
      · dsimp only at h'
        rcases eq_or_ne i oid with rfl | hne
        · rw [Function.update_same] at h'
          rw [ho] at h0
          injection h0 with h0
          subst h0
          have hact : o.is_active = true := by
            revert h1
            cases o.is_active <;> simp
          have hX := Option.some.inj h'
          refine Or.inr (Or.inl ⟨bt, bn, rfl, hact, ?_⟩)
          intro hfalse
          rw [← hX] at hfalse
          dsimp only at hfalse
          rw [hact] at hfalse
          exact absurd hfalse (by decide)
        · rw [Function.update_noteq hne] at h'
          rw [ho] at h'
          exact Or.inl (Option.some.inj h').symm
  | cancel_dca_order c oid =>
    simp only [stepOp, applyOp] at h'
    cases h0 : s.dca_orders oid with
    | none =>
      left
      simp only [cancel_dca_order, h0] at h'
      have h2 : s.dca_orders i = some o' := h'
      rw [ho] at h2
      exact (Option.some.inj h2).symm
    | some order =>
      simp only [cancel_dca_order, h0] at h'
      split_ifs at h' with h1
      · left
        have h2 : s.dca_orders i = some o' := h'
        rw [ho] at h2
        exact (Option.some.inj h2).symm
      · dsimp only at h'
        rcases eq_or_ne i oid with rfl | hne
        · rw [Function.update_same] at h'
          rw [ho] at h0
          injection h0 with h0
          subst h0
          have hown : o.owner = c := not_not.mp h1
          exact Or.inr (Or.inr ⟨c, rfl, hown, (Option.some.inj h').symm⟩)
        · rw [Function.update_noteq hne] at h'
          rw [ho] at h'
          exact Or.inl (Option.some.inj h').symm

/-- Claim C7: in every reachable state a DCA order with a positive
interval limit has completed at most that many intervals; an inactive
order never becomes active again under any call; and an active order is
deactivated by a call only when that call is an execution of this very
order reaching its interval limit, or a cancellation by its owner. -/
theorem dca_lifecycle_invariant (s : ShariaPlatform) (hs : Reachable s) :
    (∀ i o, s.dca_orders i = some o → 0 < o.total_intervals →
      o.intervals_completed ≤ o.total_intervals) ∧
    (∀ op i o o', s.dca_orders i = some o → o.is_active = false →
      (stepOp s op).dca_orders i = some o' → o'.is_active = false) ∧
    (∀ op i o o', s.dca_orders i = some o → o.is_active = true →
      (stepOp s op).dca_orders i = some o' → o'.is_active = false →
      (∃ bt bn, op = .execute_dca_order bt bn i ∧ 0 < o.total_intervals ∧
        o.total_intervals ≤ o.intervals_completed + 1) ∨
      op = .cancel_dca_order o.owner i) := by
  have hinv := reachable_inv hs
  refine ⟨fun i o ho => hinv.dca_le i o ho, ?_, ?_⟩
  · intro op i o o' ho hin h'
    rcases step_preserves_order s op i o o' hinv ho h' with rfl | ⟨bt, bn, _, hact, _⟩ | ⟨c, _, _, rfl⟩
    · exact hin
    · rw [hin] at hact
      exact absurd hact (by decide)
    · rfl
  · intro op i o o' ho hact h' hin'
    rcases step_preserves_order s op i o o' hinv ho h' with rfl | ⟨bt, bn, hop, _, himp⟩ | ⟨c, hop, hown, rfl⟩
    · rw [hact] at hin'
      exact absurd hin' (by decide)
    · exact Or.inl ⟨bt, bn, hop, (himp hin').1, (himp hin').2⟩
    · right
      rw [hop, hown]

/-- Claim C7 witness: the concrete order of `sDca` respects the bound. -/
theorem dca_lifecycle_invariant_witness :
    sDca.dca_orders 1 = some oDca ∧
    oDca.intervals_completed ≤ oDca.total_intervals :=
  ⟨rfl, (dca_lifecycle_invariant sDca reachable_sDca).1 1 oDca rfl (by decide)⟩

/-- Ids of templates harvested over strictly increasing keys are strictly
increasing, provided every stored template carries its key as id. -/
lemma pairwise_ids_filterMap (f : Nat → Option ETF)
    (hid : ∀ i t, f i = some t → t.id = i) :
    ∀ l : List Nat, l.Pairwise (· < ·) →
      (l.filterMap fun i => f (i + 1)).Pairwise (fun a b => a.id < b.id) := by
  intro l
  induction l with
  | nil =>
    intro _
    simp
  | cons x xs ih =>
    intro hp
    rcases List.pairwise_cons.mp hp with ⟨hx, hxs⟩
    cases hfx : f (x + 1) with
    | none =>
      simp only [List.filterMap_cons, hfx]
      exact ih hxs
    | some t =>
      simp only [List.filterMap_cons, hfx]
      refine List.pairwise_cons.mpr ⟨?_, ih hxs⟩
      intro b hb
      rcases List.mem_filterMap.mp hb with ⟨y, hy, hfy⟩
      have hb_id := hid _ _ hfy
      have ht_id := hid _ _ hfx
      have hxy := hx y hy
      omega

/-- Claim C10: in every reachable state `get_template_etfs` returns
exactly the templates stored at keys 1 through 10, in ascending id order;
a template stored at a key above 10 is never returned, although
`subscribe_to_template_etf` still resolves it by id (a zero-amount
subscription succeeds). -/
theorem get_template_etfs_range (s : ShariaPlatform) (hs : Reachable s) :
    (∀ t, t ∈ get_template_etfs s ↔
      ∃ i, 1 ≤ i ∧ i ≤ 10 ∧ s.template_etfs i = some t ∧ t.id = i) ∧
    (get_template_etfs s).Pairwise (fun a b => a.id < b.id) ∧
    (∀ i t, 10 < i → s.template_etfs i = some t → t ∉ get_template_etfs s) ∧
    (∀ i t c, s.template_etfs i = some t →
      (subscribe_to_template_etf s c i 0).1 = .ok s.next_etf_id) := by
  have hinv := reachable_inv hs
  have hmem : ∀ t : ETF, t ∈ get_template_etfs s ↔
      ∃ i, 1 ≤ i ∧ i ≤ 10 ∧ s.template_etfs i = some t ∧ t.id = i := by
    intro t
    constructor
    · intro ht
      rcases List.mem_filterMap.mp ht with ⟨a, ha, hfa⟩
      have ha10 := List.mem_range.mp ha
      exact ⟨a + 1, by omega, by omega, hfa, hinv.tpl_id _ _ hfa⟩
    · rintro ⟨i, h1, h10, hf, hid⟩
      refine List.mem_filterMap.mpr ⟨i - 1, List.mem_range.mpr (by omega), ?_⟩
      have hi : i - 1 + 1 = i := by omega
      rw [hi]
      exact hf
  refine ⟨hmem, ?_, ?_, ?_⟩
  · exact pairwise_ids_filterMap s.template_etfs hinv.tpl_id (List.range 10)
      (List.pairwise_lt_range 10)
  · intro i t hgt hf hmem'
    rcases (hmem t).mp hmem' with ⟨j, hj1, hj10, hfj, hjid⟩
    have hti := hinv.tpl_id i t hf
    omega
  · intro i t c hf
    simp only [subscribe_to_template_etf, hf]
    rw [if_neg (not_lt.mpr (by simpa [u128] using hinv.bal_nonneg c))]

/-- Claim C10 witness: in the reachable state `sTpl` the template stored
at key 11 is absent from `get_template_etfs`, yet a zero-amount
subscription to id 11 succeeds. -/
theorem get_template_etfs_range_witness :
    sTpl.template_etfs 11 = some tC10 ∧
    tC10 ∉ get_template_etfs sTpl ∧
    (subscribe_to_template_etf sTpl 7 11 0).1 = .ok 12 := by
  have h := get_template_etfs_range sTpl reachable_sTpl
  exact ⟨rfl, h.2.2.1 11 tC10 (by decide) rfl, h.2.2.2 11 tC10 7 rfl⟩

end Tayeb
